import Mathlib

/-
  Verification development for the OrchestrAI repository.

  Shallow embedding of:
    - src/OrchestrAI/models.py     (ToolModel / ActionModel / AIResponseModel validation)
    - src/OrchestrAI/agent.py      (ConversationHistory, Agent.parse_response,
                                    Agent.process_actions, Agent.run_conversation)
    - src/OrchestrAI/agent_manager.py (AgentManager)

  Python JSON values (the results of json.loads) are modelled by the
  inductive type JsonValue; JSON numbers are modelled as integers (no claim
  under consideration involves fractional numbers).  The model-provider
  boundary (openai chat completion) is abstracted as a supplied list of
  already-decoded replies, and a delegated agent run (target.run_conversation)
  is abstracted as an oracle from agent names to the optional returned string,
  mirroring how the code treats both as opaque blocking calls.
-/

namespace OrchestrAI

/-- Python values produced by json.loads, restricted to the JSON data model. -/
inductive JsonValue where
  | null
  | bool (b : Bool)
  | num (n : Int)
  | str (s : String)
  | arr (elems : List JsonValue)
  | obj (fields : List (String × JsonValue))

/-- Whitespace characters skipped by the JSON decoder. -/
def isJsonWs (c : Char) : Bool :=
  c = ' ' || c = '\n' || c = '\t' || c = '\r'

def skipWs : List Char → List Char
  | [] => []
  | c :: cs => if isJsonWs c then skipWs cs else c :: cs

/-- JSON string escapes handled by the decoder model. -/
def escChar (c : Char) : Option Char :=
  if c = '"' then some '"'
  else if c = '\\' then some '\\'
  else if c = '/' then some '/'
  else if c = 'n' then some '\n'
  else if c = 't' then some '\t'
  else if c = 'r' then some '\r'
  else none

/-- Parse the body of a JSON string after the opening quote. -/
def parseStringBody : List Char → Option (String × List Char)
  | [] => none
  | c :: cs =>
    if c = '"' then some ("", cs)
    else if c = '\\' then
      match cs with
      | [] => none
      | e :: cs2 =>
        match escChar e with
        | none => none
        | some d =>
          match parseStringBody cs2 with
          | none => none
          | some (s, rest) => some (d.toString ++ s, rest)
    else
      match parseStringBody cs with
      | none => none
      | some (s, rest) => some (c.toString ++ s, rest)

def takeDigits : List Char → List Char × List Char
  | [] => ([], [])
  | c :: cs =>
    if c.isDigit then
      let (ds, rest) := takeDigits cs
      (c :: ds, rest)
    else ([], c :: cs)

def digitsToNat (ds : List Char) : Nat :=
  ds.foldl (fun acc c => acc * 10 + (c.toNat - 48)) 0

/-- Integral JSON numbers (fractional numbers are out of scope of the claims). -/
def parseNumber (cs : List Char) : Option (JsonValue × List Char) :=
  match cs with
  | '-' :: rest =>
    let (ds, r) := takeDigits rest
    if ds.isEmpty then none else some (JsonValue.num (-(digitsToNat ds : Int)), r)
  | _ =>
    let (ds, r) := takeDigits cs
    if ds.isEmpty then none else some (JsonValue.num (digitsToNat ds : Int), r)

/-- Assigning a key in a decoded JSON object follows Python dict semantics:
an existing key keeps its position and its value is overwritten, a fresh key
is appended. -/
def setKey (fields : List (String × JsonValue)) (k : String) (v : JsonValue) :
    List (String × JsonValue) :=
  if fields.any (fun p => p.1 == k) then
    fields.map (fun p => if p.1 == k then (k, v) else p)
  else fields ++ [(k, v)]

mutual

/-- Fuel-based recursive-descent JSON value parser (model of json.loads). -/
def parseValue : Nat → List Char → Option (JsonValue × List Char)
  | 0, _ => none
  | Nat.succ fuel, cs =>
    match skipWs cs with
    | [] => none
    | c :: cs1 =>
      if c = 'n' then
        match cs1 with
        | 'u' :: 'l' :: 'l' :: rest => some (JsonValue.null, rest)
        | _ => none
      else if c = 't' then
        match cs1 with
        | 'r' :: 'u' :: 'e' :: rest => some (JsonValue.bool true, rest)
        | _ => none
      else if c = 'f' then
        match cs1 with
        | 'a' :: 'l' :: 's' :: 'e' :: rest => some (JsonValue.bool false, rest)
        | _ => none
      else if c = '"' then
        match parseStringBody cs1 with
        | some (s, rest) => some (JsonValue.str s, rest)
        | none => none
      else if c = '[' then
        match skipWs cs1 with
        | ']' :: rest => some (JsonValue.arr [], rest)
        | cs2 => parseElems fuel cs2 []
      else if c = '\x7b' then
        match skipWs cs1 with
        | '\x7d' :: rest => some (JsonValue.obj [], rest)
        | cs2 => parseMembers fuel cs2 []
      else if c = '-' || c.isDigit then parseNumber (c :: cs1)
      else none

/-- Parse the remaining comma-separated elements of a JSON array. -/
def parseElems : Nat → List Char → List JsonValue → Option (JsonValue × List Char)
  | 0, _, _ => none
  | Nat.succ fuel, cs, acc =>
    match parseValue fuel cs with
    | none => none
    | some (v, rest) =>
      match skipWs rest with
      | ',' :: rest2 => parseElems fuel rest2 (acc ++ [v])
      | ']' :: rest2 => some (JsonValue.arr (acc ++ [v]), rest2)
      | _ => none

/-- Parse the remaining comma-separated members of a JSON object. -/
def parseMembers : Nat → List Char → List (String × JsonValue) →
    Option (JsonValue × List Char)
  | 0, _, _ => none
  | Nat.succ fuel, cs, acc =>
    match skipWs cs with
    | '"' :: cs1 =>
      match parseStringBody cs1 with
      | none => none
      | some (k, rest) =>
        match skipWs rest with
        | ':' :: rest2 =>
          match parseValue fuel (skipWs rest2) with
          | none => none
          | some (v, rest3) =>
            match skipWs rest3 with
            | ',' :: rest4 => parseMembers fuel rest4 (setKey acc k v)
            | '\x7d' :: rest4 => some (JsonValue.obj (setKey acc k v), rest4)
            | _ => none
        | _ => none
    | _ => none

end

/-- Model of Python json.loads: parse a complete JSON document, requiring
only trailing whitespace after the value. Returns none where json.loads
raises JSONDecodeError. -/
def loads (s : String) : Option JsonValue :=
  match parseValue (2 * s.length + 2) s.toList with
  | some (v, rest) => if (skipWs rest).isEmpty then some v else none
  | none => none

/-- A single-quote character, built numerically so the rendering functions
below stay printable. -/
def squote : String := (Char.ofNat 39).toString

mutual

/-- Python repr of a decoded JSON value (string escaping inside repr is not
modelled; no claim evaluates it). -/
def pyRepr : JsonValue → String
  | JsonValue.null => "None"
  | JsonValue.bool true => "True"
  | JsonValue.bool false => "False"
  | JsonValue.num n => toString n
  | JsonValue.str s => squote ++ s ++ squote
  | JsonValue.arr xs => "[" ++ String.intercalate ", " (pyReprList xs) ++ "]"
  | JsonValue.obj kvs => "\x7b" ++ String.intercalate ", " (pyReprFields kvs) ++ "\x7d"

def pyReprList : List JsonValue → List String
  | [] => []
  | v :: vs => pyRepr v :: pyReprList vs

def pyReprFields : List (String × JsonValue) → List String
  | [] => []
  | (k, v) :: kvs => (squote ++ k ++ squote ++ ": " ++ pyRepr v) :: pyReprFields kvs

end

/-- Python str of a decoded JSON value. -/
def pyStr : JsonValue → String
  | JsonValue.str s => s
  | v => pyRepr v

/-- Python type name of a decoded JSON value (used in error messages; the
code prints the full class repr, which is abstracted to the class name). -/
def pyTypeName : JsonValue → String
  | JsonValue.null => "NoneType"
  | JsonValue.bool _ => "bool"
  | JsonValue.num _ => "int"
  | JsonValue.str _ => "str"
  | JsonValue.arr _ => "list"
  | JsonValue.obj _ => "dict"

/- ------------------------------------------------------------------
   ConversationHistory (src/OrchestrAI/agent.py, class ConversationHistory)
   ------------------------------------------------------------------ -/

/-- One conversation message: a role-tagged content string, with the tool
name attached for function messages. -/
structure Msg where
  role : String
  content : String
  name : Option String
deriving DecidableEq, Repr

abbrev History := List Msg

def add_user (h : History) (content : String) : History :=
  h ++ [⟨"user", content, none⟩]

def add_assistant (h : History) (content : String) : History :=
  h ++ [⟨"assistant", content, none⟩]

def add_function (h : History) (content nm : String) : History :=
  h ++ [⟨"function", content, some nm⟩]

/-- Update the first message with the given role in place, returning none if
no message with that role exists (the scan of _update_or_add). -/
def updateFirstRole (role content : String) : History → Option History
  | [] => none
  | m :: rest =>
    if m.role = role then some ({ m with content := content } :: rest)
    else
      match updateFirstRole role content rest with
      | some rest2 => some (m :: rest2)
      | none => none

/-- ConversationHistory._update_or_add: replace the first message with the
role in place, else insert a new message at position 0. -/
def update_or_add (h : History) (role content : String) : History :=
  match updateFirstRole role content h with
  | some h2 => h2
  | none => ⟨role, content, none⟩ :: h

def add_system (h : History) (content : String) : History :=
  update_or_add h "system" content

def update_system (h : History) (content : String) : History :=
  update_or_add h "system" content

/-- ConversationHistory.__init__: the system message is added only when the
argument is truthy (a non-empty string). -/
def initHistory : Option String → History
  | none => []
  | some s => if s = "" then [] else update_or_add [] "system" s

/- ------------------------------------------------------------------
   Response schema models (src/OrchestrAI/models.py)
   ------------------------------------------------------------------ -/

/-- ToolModel: optional tool name plus the params mapping.  The runtime
value of params is kept as a JsonValue because Agent.process_actions
re-parses string-valued params (the legacy path the spec describes). -/
structure ToolModel where
  name : Option String
  params : JsonValue

/-- ActionModel: one decoded action. -/
structure ActionModel where
  type : String
  agent : Option String
  tool : Option ToolModel
  message : String

/-- AIResponseModel: reasoning plus the ordered batch of actions. -/
structure AIResponseModel where
  reasoning : String
  actions : List ActionModel

def lookupField (kvs : List (String × JsonValue)) (k : String) : Option JsonValue :=
  (kvs.find? (fun p => p.1 == k)).map (fun p => p.2)

/-- The declared fields of ActionModel (extra = "forbid"). -/
def actionFields : List String := ["type", "agent", "tool", "message"]

/-- Pydantic validation of ToolModel: only the declared fields are allowed
(extra = "forbid"); name defaults to None and accepts null or a string;
params defaults to the empty dict and must be a dict. -/
def ToolModel.validate (v : JsonValue) : Except String ToolModel :=
  match v with
  | JsonValue.obj kvs =>
    if kvs.any (fun p => !(["name", "params"].contains p.1)) then
      Except.error "Extra inputs are not permitted"
    else
      match lookupField kvs "name" with
      | some (JsonValue.bool _) => Except.error "name: Input should be a valid string"
      | some (JsonValue.num _) => Except.error "name: Input should be a valid string"
      | some (JsonValue.arr _) => Except.error "name: Input should be a valid string"
      | some (JsonValue.obj _) => Except.error "name: Input should be a valid string"
      | nmField =>
        let nm : Option String :=
          match nmField with
          | some (JsonValue.str s) => some s
          | _ => none
        match lookupField kvs "params" with
        | none => Except.ok ⟨nm, JsonValue.obj []⟩
        | some (JsonValue.obj fs) => Except.ok ⟨nm, JsonValue.obj fs⟩
        | some _ => Except.error "params: Input should be a valid dictionary"
  | _ => Except.error "Input should be a valid dictionary"

/-- Pydantic validation of the optional agent field. -/
def validAgentField : Option JsonValue → Except String (Option String)
  | none => Except.ok none
  | some JsonValue.null => Except.ok none
  | some (JsonValue.str s) => Except.ok (some s)
  | some _ => Except.error "agent: Input should be a valid string"

/-- Pydantic validation of the optional tool field. -/
def validToolField : Option JsonValue → Except String (Option ToolModel)
  | none => Except.ok none
  | some JsonValue.null => Except.ok none
  | some tv =>
    match ToolModel.validate tv with
    | Except.ok t => Except.ok (some t)
    | Except.error e => Except.error e

/-- Pydantic validation of the required type field, including the
check_type validator restricting it to the three-value enum. -/
def validTypeField : Option JsonValue → Except String String
  | some (JsonValue.str ty) =>
    if ["respond", "use_tool", "call_agent"].contains ty then Except.ok ty
    else Except.error "Invalid action type; must be respond, use_tool, or call_agent."
  | some _ => Except.error "type: Input should be a valid string"
  | none => Except.error "type: Field required"

/-- Pydantic validation of the required message field. -/
def validMessageField : Option JsonValue → Except String String
  | some (JsonValue.str msg) => Except.ok msg
  | some _ => Except.error "message: Input should be a valid string"
  | none => Except.error "message: Field required"

/-- Combine the four field validations: the first failing field fails the
whole action. -/
def buildAction : Except String String → Except String (Option String) →
    Except String (Option ToolModel) → Except String String →
    Except String ActionModel
  | Except.error e, _, _, _ => Except.error e
  | Except.ok _, Except.error e, _, _ => Except.error e
  | Except.ok _, Except.ok _, Except.error e, _ => Except.error e
  | Except.ok _, Except.ok _, Except.ok _, Except.error e => Except.error e
  | Except.ok ty, Except.ok ag, Except.ok tl, Except.ok msg =>
    Except.ok ⟨ty, ag, tl, msg⟩

/-- Pydantic validation of ActionModel: extra fields are forbidden, type is
a required string constrained by the check_type validator to the three-value
enum, agent and tool are optional (defaulting to None) with no
required-by-type check, and message is a required string. -/
def ActionModel.validate (v : JsonValue) : Except String ActionModel :=
  match v with
  | JsonValue.obj kvs =>
    if kvs.any (fun p => !(actionFields.contains p.1)) then
      Except.error "Extra inputs are not permitted"
    else
      buildAction (validTypeField (lookupField kvs "type"))
        (validAgentField (lookupField kvs "agent"))
        (validToolField (lookupField kvs "tool"))
        (validMessageField (lookupField kvs "message"))
  | _ => Except.error "Input should be a valid dictionary"

/-- Pydantic validation of AIResponseModel: required reasoning string and a
list of actions, each validated by ActionModel.validate; extra fields are
forbidden. -/
def AIResponseModel.validate (v : JsonValue) : Except String AIResponseModel :=
  match v with
  | JsonValue.obj kvs =>
    if kvs.any (fun p => !(["reasoning", "actions"].contains p.1)) then
      Except.error "Extra inputs are not permitted"
    else
      match lookupField kvs "reasoning" with
      | some (JsonValue.str rs) =>
        match lookupField kvs "actions" with
        | some (JsonValue.arr vs) =>
          match vs.mapM ActionModel.validate with
          | Except.ok acts => Except.ok ⟨rs, acts⟩
          | Except.error e => Except.error e
        | some _ => Except.error "actions: Input should be a valid list"
        | none => Except.error "actions: Field required"
      | some _ => Except.error "reasoning: Input should be a valid string"
      | none => Except.error "reasoning: Field required"
  | _ => Except.error "Input should be a valid dictionary"

def isErrorE {α : Type} : Except String α → Bool
  | Except.error _ => true
  | Except.ok _ => false

/- ------------------------------------------------------------------
   Agent.parse_response (src/OrchestrAI/agent.py, lines 168-181)
   ------------------------------------------------------------------ -/

/-- Agent.parse_response on a string reply: json.loads then pydantic
validation.  On any failure it logs and appends the assistant note
"Error parsing response: \x7be\x7d" (the source string is not an f-string,
so the note is this literal text), and falls through returning None. -/
def parse_response (hist : History) (reply : String) :
    Option AIResponseModel × History :=
  match loads reply with
  | none => (none, add_assistant hist "Error parsing response: \x7be\x7d")
  | some j =>
    match AIResponseModel.validate j with
    | Except.ok r => (some r, hist)
    | Except.error _ => (none, add_assistant hist "Error parsing response: \x7be\x7d")

/- ------------------------------------------------------------------
   Agent.process_actions (src/OrchestrAI/agent.py, lines 203-297)
   ------------------------------------------------------------------ -/

/-- A registered tool: the formal parameter names obtained from the
function signature, and the callable itself.  The callable receives the
stringified keyword arguments and either returns an optional result
(None modelled as none) or raises (modelled as Except.error). -/
structure ToolImpl where
  expected_params : List String
  run : List (String × String) → Except String (Option String)

/-- The parts of an Agent that action dispatch reads: its tool map, its
parent and children names, and the registry combined with delegation
(manager.get followed by target.run_conversation), abstracted as an
oracle from agent names to the optional returned string. -/
structure Env where
  tools : List (String × ToolImpl)
  parent : Option String
  children : List String
  registry : String → Option (Option String)

def Env.lookupTool (env : Env) (tn : String) : Option ToolImpl :=
  (env.tools.find? (fun p => p.1 == tn)).map (fun p => p.2)

/-- The permitted delegation targets: the parent name, if any, together
with the names of the direct children. -/
def allowedNames (env : Env) : List String :=
  (match env.parent with
   | some p => [p]
   | none => []) ++ env.children

/-- Observable side effects of dispatch, beyond the conversation history:
registry lookups, actual tool invocations and delegations. -/
inductive Effect where
  | registryLookup (agentName : String)
  | toolInvoked (toolName : String) (kwargs : List (String × String))
  | delegated (agentName : String) (message : String)
deriving DecidableEq, Repr

/-- The mutable state process_actions threads through a batch. -/
structure ProcState where
  history : History
  last_response : Option String
  final : Bool
  trace : List Effect

def initProc (hist : History) : ProcState := ⟨hist, none, false, []⟩

/-- Agent._validate_strict_params: converts all provided tool parameter
values to strings. -/
def validate_strict_params (params : List (String × JsonValue)) :
    List (String × String) :=
  params.map (fun p => (p.1, pyStr p.2))

def listLenMsg (tn : String) (expectedLen gotLen : Nat) : String :=
  "Parameter mismatch for " ++ tn ++ ": expected a dict or a list of length "
    ++ toString expectedLen ++ ", got a list of length " ++ toString gotLen

def badTypeMsg (tn : String) (v : JsonValue) : String :=
  "Tool params for " ++ tn ++ " must be a JSON object or list, got " ++ pyTypeName v

def renderNames (xs : List String) : String :=
  "[" ++ String.intercalate ", " xs ++ "]"

def keyMismatchMsg (tn : String) (expected provided : List String) : String :=
  "Parameter mismatch for " ++ tn ++ ": expected " ++ renderNames expected
    ++ ", got " ++ renderNames provided

/-- The try-block of the use_tool branch: a string params value is
re-parsed with json.loads (a raised JSONDecodeError is caught as the
"Invalid JSON in tool params" note); a non-dict parse result that is a
list of exactly the expected arity is zipped with the formal parameter
names; any other non-dict value is rejected. -/
def normalizeParams (tn : String) (expected : List String)
    (params_input : JsonValue) : Except String (List (String × JsonValue)) :=
  let parsedE : Except String JsonValue :=
    match params_input with
    | JsonValue.str s =>
      match loads s with
      | some v => Except.ok v
      | none => Except.error "Invalid JSON in tool params: invalid JSON"
    | v => Except.ok v
  match parsedE with
  | Except.error e => Except.error e
  | Except.ok (JsonValue.obj kvs) => Except.ok kvs
  | Except.ok (JsonValue.arr xs) =>
    if xs.length = expected.length then Except.ok (expected.zip xs)
    else Except.error (listLenMsg tn expected.length xs.length)
  | Except.ok v => Except.error (badTypeMsg tn v)

/-- Python set equality of the provided and expected keyword name sets. -/
def sameSet (xs ys : List String) : Bool :=
  xs.all (fun x => ys.contains x) && ys.all (fun y => xs.contains y)

/-- A string params value that makes the use_tool try-block fail: it does
not parse as JSON, or parses to something that is neither an object nor a
list of exactly the expected arity. -/
def badParamsB (expected : List String) (s : String) : Bool :=
  match loads s with
  | none => true
  | some (JsonValue.obj _) => false
  | some (JsonValue.arr xs) => !(xs.length == expected.length)
  | some _ => true

/-- The assistant note the try-block records for a failing string params
value. -/
def paramFailMsg (tn : String) (expected : List String) (s : String) : String :=
  match loads s with
  | none => "Invalid JSON in tool params: invalid JSON"
  | some (JsonValue.arr xs) => listLenMsg tn expected.length xs.length
  | some v => badTypeMsg tn v

/-- The committed tool invocation: the tool is called with the stringified
keyword arguments; a raised error is caught and recorded as an assistant
failure note, a None result is recorded as the canned success note, any
other result is recorded verbatim as a function message carrying the
tool's name.  Nothing propagates out. -/
def runTool (st : ProcState) (tn : String) (timpl : ToolImpl)
    (params : List (String × String)) : ProcState :=
  match timpl.run params with
  | Except.ok res =>
    { st with
      trace := st.trace ++ [Effect.toolInvoked tn params],
      history := add_function st.history
        (match res with
         | none => "Tool executed successfully with no output."
         | some r => r) tn }
  | Except.error e =>
    { st with
      trace := st.trace ++ [Effect.toolInvoked tn params],
      history := add_assistant st.history ("Error with tool " ++ tn ++ ": " ++ e) }

/-- After the params try-block: the stringified keyword set must exactly
equal the formal parameter set, else the tool is not invoked. -/
def stepToolChecked (st : ProcState) (tn : String) (timpl : ToolImpl) :
    Except String (List (String × JsonValue)) → ProcState
  | Except.error msg => { st with history := add_assistant st.history msg }
  | Except.ok kvs =>
    if sameSet ((validate_strict_params kvs).map (fun p => p.1))
        timpl.expected_params then
      runTool st tn timpl (validate_strict_params kvs)
    else
      { st with
        history := add_assistant st.history
          (keyMismatchMsg tn timpl.expected_params
            ((validate_strict_params kvs).map (fun p => p.1))) }

/-- Dispatch on the tool-map lookup result. -/
def stepToolLookup (st : ProcState) (t : ToolModel) (tn : String) :
    Option ToolImpl → ProcState
  | none =>
    { st with history := add_assistant st.history ("Tool not available: " ++ tn) }
  | some timpl =>
    stepToolChecked st tn timpl (normalizeParams tn timpl.expected_params t.params)

/-- Dispatch on the optional tool name (a None name is never in the tool
map, producing the same not-available note the code logs for it). -/
def stepToolNamed (env : Env) (st : ProcState) (t : ToolModel) :
    Option String → ProcState
  | none =>
    { st with history := add_assistant st.history "Tool not available: None" }
  | some tn => stepToolLookup st t tn (env.lookupTool tn)

/-- The use_tool arm of the dispatch loop. -/
def stepUseTool (env : Env) (st : ProcState) : Option ToolModel → ProcState
  | none =>
    { st with history := add_assistant st.history "Tool not available: None" }
  | some t => stepToolNamed env st t t.name

/-- Python truthiness of an Optional[str]: None and the empty string are
falsy. -/
def truthyOpt : Option String → Bool
  | none => false
  | some s => !s.isEmpty

/-- The tail of the call_agent arm once the registry has been consulted:
a missing target only logs; a found target is delegated to, and its result
is appended to the history tagged with the target name only when truthy. -/
def stepDelegate (st : ProcState) (n message : String) :
    Option (Option String) → ProcState
  | none => st
  | some r =>
    if truthyOpt r then
      { st with
        trace := st.trace ++ [Effect.delegated n message],
        history := add_assistant st.history (n ++ ": " ++ r.getD "") }
    else { st with trace := st.trace ++ [Effect.delegated n message] }

/-- The call_agent arm of the dispatch loop: the permitted-set check runs
before the registry lookup. -/
def stepCallAgent (env : Env) (st : ProcState) : Option String → String → ProcState
  | none, _ => st
  | some n, message =>
    if n ∈ allowedNames env then
      stepDelegate { st with trace := st.trace ++ [Effect.registryLookup n] }
        n message (env.registry n)
    else st

/-- One iteration of the for-loop of Agent.process_actions. -/
def step (env : Env) (st : ProcState) (a : ActionModel) : ProcState :=
  if a.type = "respond" then
    { st with last_response := some a.message, final := true }
  else if a.type = "use_tool" then
    stepUseTool env st a.tool
  else if a.type = "call_agent" then
    stepCallAgent env st a.agent a.message
  else st

/-- Agent.process_actions: resets last_response, then folds the dispatch
step over the whole ordered batch (the loop has no break). -/
def process_actions (env : Env) (hist : History) (r : AIResponseModel) : ProcState :=
  r.actions.foldl (step env) (initProc hist)

/-- Agent.run_conversation over a supplied stream of decoded model
replies: process batches until one contains a respond action, then return
last_response.  An exhausted reply stream models a conversation that has
not yet terminated. -/
def run_conversation (env : Env) : List AIResponseModel → History →
    Option String × History
  | [], hist => (none, hist)
  | r :: rest, hist =>
    let p := process_actions env hist r
    if p.final then (p.last_response, p.history)
    else run_conversation env rest p.history

/- ------------------------------------------------------------------
   AgentManager (src/OrchestrAI/agent_manager.py)
   ------------------------------------------------------------------ -/

/-- A registered agent as the registry sees it: a name plus an identity
payload distinguishing distinct instances. -/
structure RAgent where
  name : String
  ident : Nat
deriving DecidableEq, Repr

/-- AgentManager: the name-to-agent dict. -/
structure AgentManager where
  agents : List (String × RAgent)
deriving DecidableEq, Repr

def AgentManager.get (m : AgentManager) (nm : String) : Option RAgent :=
  (m.agents.find? (fun p => p.1 == nm)).map (fun p => p.2)

/-- AgentManager.register: raises if the name already exists, otherwise
adds the mapping. -/
def AgentManager.register (m : AgentManager) (a : RAgent) :
    Except String AgentManager :=
  if m.agents.any (fun p => p.1 == a.name) then
    Except.error ("Agent with name " ++ a.name ++ " already exists.")
  else Except.ok ⟨m.agents ++ [(a.name, a)]⟩

def eraseKey : List (String × RAgent) → String → List (String × RAgent)
  | [], _ => []
  | p :: ps, nm => if p.1 = nm then ps else p :: eraseKey ps nm

/-- AgentManager.unregister: deletes the mapping if present, no-op
otherwise. -/
def AgentManager.unregister (m : AgentManager) (nm : String) : AgentManager :=
  if m.agents.any (fun p => p.1 == nm) then ⟨eraseKey m.agents nm⟩ else m

def AgentManager.all_agents (m : AgentManager) : List RAgent :=
  m.agents.map (fun p => p.2)

/- ------------------------------------------------------------------
   Conversation-history operation sequences (for the C9 invariant)
   ------------------------------------------------------------------ -/

/-- The mutating ConversationHistory operations. -/
inductive HistOp where
  | addSystem (content : String)
  | addUser (content : String)
  | addAssistant (content : String)
  | addFunction (content nm : String)
  | updateSystem (content : String)
deriving DecidableEq

def applyOp (h : History) : HistOp → History
  | HistOp.addSystem c => add_system h c
  | HistOp.addUser c => add_user h c
  | HistOp.addAssistant c => add_assistant h c
  | HistOp.addFunction c nm => add_function h c nm
  | HistOp.updateSystem c => update_system h c

/-- A history built by the constructor followed by any operation sequence. -/
def runOps (init : Option String) (ops : List HistOp) : History :=
  ops.foldl applyOp (initHistory init)

def noSystem (h : History) : Bool := h.all (fun m => m.role != "system")

/-- The system-slot invariant: every system message sits at position 0, so
at most one exists and it is logically first. -/
def histInv : History → Bool
  | [] => true
  | _ :: rest => noSystem rest

/- ------------------------------------------------------------------
   Batch observables and concrete instances used by witnesses
   ------------------------------------------------------------------ -/

/-- The message of the last respond action of a batch, if any: the value
last_response holds after the loop. -/
def lastRespondMsg : List ActionModel → Option String
  | [] => none
  | a :: as =>
    match lastRespondMsg as with
    | some m => some m
    | none => if a.type = "respond" then some a.message else none

/-- Whether a batch contains a respond action: the value of the final flag
after the loop. -/
def hasRespond (as : List ActionModel) : Bool :=
  as.any (fun a => a.type == "respond")

/-- An agent with no tools, no parent, no children, an empty registry. -/
def env0 : Env := ⟨[], none, [], fun _ => none⟩

/-- A one-parameter tool returning the string "ok". -/
def toolEcho1 : ToolImpl := ⟨["x"], fun _ => Except.ok (some "ok")⟩

def envEcho1 : Env := ⟨[("echo1", toolEcho1)], none, [], fun _ => none⟩

/-- A two-parameter tool. -/
def toolPair : ToolImpl := ⟨["x", "y"], fun _ => Except.ok (some "r")⟩

def envPair : Env := ⟨[("pair", toolPair)], none, [], fun _ => none⟩

/-- A zero-parameter tool returning the empty string. -/
def toolEmptyRes : ToolImpl := ⟨[], fun _ => Except.ok (some "")⟩

def envEmptyRes : Env := ⟨[("emptyTool", toolEmptyRes)], none, [], fun _ => none⟩

/-- A one-parameter tool that raises. -/
def toolBoom : ToolImpl := ⟨["x"], fun _ => Except.error "boom"⟩

def envBoom : Env := ⟨[("boom", toolBoom)], none, [], fun _ => none⟩

/-- An agent with parent "papa" and one child "kid"; the delegation oracle
says the kid run returns the empty string. -/
def envKid : Env :=
  ⟨[], some "papa", ["kid"], fun n => if n = "kid" then some (some "") else none⟩


/- ------------------------------------------------------------------
   General lemmas about the dispatch step
   ------------------------------------------------------------------ -/

theorem lastRespondMsg_cons (a : ActionModel) (as : List ActionModel) :
    lastRespondMsg (a :: as) =
      match lastRespondMsg as with
      | some m => some m
      | none => if a.type = "respond" then some a.message else none := rfl

theorem runTool_last (st : ProcState) (tn : String) (timpl : ToolImpl)
    (params : List (String × String)) :
    (runTool st tn timpl params).last_response = st.last_response := by
  unfold runTool
  cases timpl.run params with
  | ok res => rfl
  | error e => rfl

theorem runTool_final (st : ProcState) (tn : String) (timpl : ToolImpl)
    (params : List (String × String)) :
    (runTool st tn timpl params).final = st.final := by
  unfold runTool
  cases timpl.run params with
  | ok res => rfl
  | error e => rfl

theorem runTool_trace (st : ProcState) (tn : String) (timpl : ToolImpl)
    (params : List (String × String)) :
    (runTool st tn timpl params).trace = st.trace ++ [Effect.toolInvoked tn params] := by
  unfold runTool
  cases timpl.run params with
  | ok res => rfl
  | error e => rfl

theorem stepToolChecked_last (st : ProcState) (tn : String) (timpl : ToolImpl)
    (pe : Except String (List (String × JsonValue))) :
    (stepToolChecked st tn timpl pe).last_response = st.last_response := by
  cases pe with
  | error msg => rfl
  | ok kvs =>
    by_cases hs : sameSet ((validate_strict_params kvs).map (fun p => p.1))
        timpl.expected_params
    · simp only [stepToolChecked, if_pos hs, runTool_last]
    · simp only [stepToolChecked, if_neg hs]

theorem stepToolChecked_final (st : ProcState) (tn : String) (timpl : ToolImpl)
    (pe : Except String (List (String × JsonValue))) :
    (stepToolChecked st tn timpl pe).final = st.final := by
  cases pe with
  | error msg => rfl
  | ok kvs =>
    by_cases hs : sameSet ((validate_strict_params kvs).map (fun p => p.1))
        timpl.expected_params
    · simp only [stepToolChecked, if_pos hs, runTool_final]
    · simp only [stepToolChecked, if_neg hs]

theorem stepToolLookup_last (st : ProcState) (t : ToolModel) (tn : String)
    (ti : Option ToolImpl) :
    (stepToolLookup st t tn ti).last_response = st.last_response := by
  cases ti with
  | none => rfl
  | some timpl => simp only [stepToolLookup, stepToolChecked_last]

theorem stepToolLookup_final (st : ProcState) (t : ToolModel) (tn : String)
    (ti : Option ToolImpl) :
    (stepToolLookup st t tn ti).final = st.final := by
  cases ti with
  | none => rfl
  | some timpl => simp only [stepToolLookup, stepToolChecked_final]

theorem stepToolNamed_last (env : Env) (st : ProcState) (t : ToolModel)
    (nm : Option String) :
    (stepToolNamed env st t nm).last_response = st.last_response := by
  cases nm with
  | none => rfl
  | some tn => simp only [stepToolNamed, stepToolLookup_last]

theorem stepToolNamed_final (env : Env) (st : ProcState) (t : ToolModel)
    (nm : Option String) :
    (stepToolNamed env st t nm).final = st.final := by
  cases nm with
  | none => rfl
  | some tn => simp only [stepToolNamed, stepToolLookup_final]

theorem stepUseTool_last (env : Env) (st : ProcState) (tf : Option ToolModel) :
    (stepUseTool env st tf).last_response = st.last_response := by
  cases tf with
  | none => rfl
  | some t => simp only [stepUseTool, stepToolNamed_last]

theorem stepUseTool_final (env : Env) (st : ProcState) (tf : Option ToolModel) :
    (stepUseTool env st tf).final = st.final := by
  cases tf with
  | none => rfl
  | some t => simp only [stepUseTool, stepToolNamed_final]

theorem stepDelegate_last (st : ProcState) (n message : String)
    (rr : Option (Option String)) :
    (stepDelegate st n message rr).last_response = st.last_response := by
  cases rr with
  | none => rfl
  | some r =>
    by_cases ht : truthyOpt r
    · simp only [stepDelegate, if_pos ht]
    · simp only [stepDelegate, if_neg ht]

theorem stepDelegate_final (st : ProcState) (n message : String)
    (rr : Option (Option String)) :
    (stepDelegate st n message rr).final = st.final := by
  cases rr with
  | none => rfl
  | some r =>
    by_cases ht : truthyOpt r
    · simp only [stepDelegate, if_pos ht]
    · simp only [stepDelegate, if_neg ht]

theorem stepCallAgent_last (env : Env) (st : ProcState) (ag : Option String)
    (msg : String) : (stepCallAgent env st ag msg).last_response = st.last_response := by
  cases ag with
  | none => rfl
  | some n =>
    by_cases h : n ∈ allowedNames env
    · simp only [stepCallAgent, if_pos h, stepDelegate_last]
    · simp only [stepCallAgent, if_neg h]

theorem stepCallAgent_final (env : Env) (st : ProcState) (ag : Option String)
    (msg : String) : (stepCallAgent env st ag msg).final = st.final := by
  cases ag with
  | none => rfl
  | some n =>
    by_cases h : n ∈ allowedNames env
    · simp only [stepCallAgent, if_pos h, stepDelegate_final]
    · simp only [stepCallAgent, if_neg h]

theorem step_last_response (env : Env) (st : ProcState) (a : ActionModel) :
    (step env st a).last_response =
      if a.type = "respond" then some a.message else st.last_response := by
  unfold step
  by_cases h1 : a.type = "respond"
  · rw [if_pos h1, if_pos h1]
  · rw [if_neg h1, if_neg h1]
    by_cases h2 : a.type = "use_tool"
    · rw [if_pos h2, stepUseTool_last]
    · rw [if_neg h2]
      by_cases h3 : a.type = "call_agent"
      · rw [if_pos h3, stepCallAgent_last]
      · rw [if_neg h3]

theorem step_final (env : Env) (st : ProcState) (a : ActionModel) :
    (step env st a).final =
      if a.type = "respond" then true else st.final := by
  unfold step
  by_cases h1 : a.type = "respond"
  · rw [if_pos h1, if_pos h1]
  · rw [if_neg h1, if_neg h1]
    by_cases h2 : a.type = "use_tool"
    · rw [if_pos h2, stepUseTool_final]
    · rw [if_neg h2]
      by_cases h3 : a.type = "call_agent"
      · rw [if_pos h3, stepCallAgent_final]
      · rw [if_neg h3]

theorem foldl_step_last (env : Env) (as : List ActionModel) :
    ∀ st : ProcState,
      (as.foldl (step env) st).last_response =
        match lastRespondMsg as with
        | some m => some m
        | none => st.last_response := by
  induction as with
  | nil => intro st; rfl
  | cons a as ih =>
    intro st
    rw [List.foldl_cons, ih, lastRespondMsg_cons]
    cases h : lastRespondMsg as with
    | some m => rfl
    | none =>
      rw [step_last_response]
      by_cases hr : a.type = "respond"
      · rw [if_pos hr, if_pos hr]
      · rw [if_neg hr, if_neg hr]

theorem foldl_step_final (env : Env) (as : List ActionModel) :
    ∀ st : ProcState,
      (as.foldl (step env) st).final = (st.final || hasRespond as) := by
  induction as with
  | nil => intro st; simp [hasRespond]
  | cons a as ih =>
    intro st
    rw [List.foldl_cons, ih, step_final]
    by_cases hr : a.type = "respond"
    · have hb : (a.type == "respond") = true := by simp [hr]
      simp [hasRespond, if_pos hr, hb]
    · have hb : (a.type == "respond") = false := by simp [hr]
      simp only [if_neg hr]
      simp [hasRespond, hb]

theorem lastRespondMsg_append (xs ys : List ActionModel) :
    lastRespondMsg (xs ++ ys) =
      match lastRespondMsg ys with
      | some m => some m
      | none => lastRespondMsg xs := by
  induction xs with
  | nil =>
    cases h : lastRespondMsg ys with
    | some m => simp [h]
    | none => simp [h, lastRespondMsg]
  | cons x xs ih =>
    rw [List.cons_append, lastRespondMsg_cons, ih, lastRespondMsg_cons]
    cases h : lastRespondMsg ys with
    | some m => rfl
    | none => rfl

theorem lastRespondMsg_eq_none (as : List ActionModel)
    (h : ∀ a ∈ as, a.type ≠ "respond") : lastRespondMsg as = none := by
  induction as with
  | nil => rfl
  | cons a as ih =>
    have ha : a.type ≠ "respond" := h a (by simp)
    have h2 : ∀ b ∈ as, b.type ≠ "respond" := fun b hb => h b (by simp [hb])
    rw [lastRespondMsg_cons, ih h2, if_neg ha]

/- ------------------------------------------------------------------
   Claim C1
   ------------------------------------------------------------------ -/

/-- Claim C1: for every decoded response whose actions list contains a
respond action followed by further actions, processing the batch executes
every action in strict list order without short-circuiting after the
respond (the result of the batch equals folding the dispatch step through
the prefix, the respond, and then all remaining actions); if several
respond actions occur in one batch, the message of the last one becomes
last_response, and run_conversation returns that message as its result. -/
theorem c1_all_actions_execute_and_last_respond_wins
    (env : Env) (hist : History) (reas : String)
    (as1 as2 : List ActionModel) (ag : Option String) (tl : Option ToolModel)
    (m : String) (rest : List AIResponseModel)
    (h2 : ∀ a ∈ as2, a.type ≠ "respond") :
    process_actions env hist ⟨reas, as1 ++ ⟨"respond", ag, tl, m⟩ :: as2⟩
      = as2.foldl (step env)
          (step env (as1.foldl (step env) (initProc hist)) ⟨"respond", ag, tl, m⟩)
    ∧ (process_actions env hist ⟨reas, as1 ++ ⟨"respond", ag, tl, m⟩ :: as2⟩).last_response
        = some m
    ∧ (run_conversation env (⟨reas, as1 ++ ⟨"respond", ag, tl, m⟩ :: as2⟩ :: rest) hist).1
        = some m := by
  have hlast :
      (process_actions env hist ⟨reas, as1 ++ ⟨"respond", ag, tl, m⟩ :: as2⟩).last_response
        = some m := by
    show ((as1 ++ ⟨"respond", ag, tl, m⟩ :: as2).foldl (step env) (initProc hist)).last_response
        = some m
    rw [foldl_step_last, lastRespondMsg_append, lastRespondMsg_cons,
      lastRespondMsg_eq_none as2 h2]
    rfl
  have hfin :
      (process_actions env hist ⟨reas, as1 ++ ⟨"respond", ag, tl, m⟩ :: as2⟩).final = true := by
    show ((as1 ++ ⟨"respond", ag, tl, m⟩ :: as2).foldl (step env) (initProc hist)).final = true
    rw [foldl_step_final]
    simp [hasRespond, initProc]
  refine ⟨?_, hlast, ?_⟩
  · show (as1 ++ ⟨"respond", ag, tl, m⟩ :: as2).foldl (step env) (initProc hist) = _
    rw [List.foldl_append, List.foldl_cons]
  · show (if (process_actions env hist ⟨reas, as1 ++ ⟨"respond", ag, tl, m⟩ :: as2⟩).final
        then ((process_actions env hist ⟨reas, as1 ++ ⟨"respond", ag, tl, m⟩ :: as2⟩).last_response,
              (process_actions env hist ⟨reas, as1 ++ ⟨"respond", ag, tl, m⟩ :: as2⟩).history)
        else run_conversation env rest
          (process_actions env hist ⟨reas, as1 ++ ⟨"respond", ag, tl, m⟩ :: as2⟩).history).1
      = some m
    rw [if_pos hfin, hlast]

/-- Witness for C1 at a concrete batch: a respond, then a second respond
"done", then a trailing call_agent action; the batch result equals the
fold through all three actions, last_response is "done", and the
conversation returns "done". -/
theorem c1_witness :
    process_actions env0 []
        ⟨"r", [⟨"respond", none, none, "first"⟩] ++ ⟨"respond", none, none, "done"⟩
          :: [⟨"call_agent", none, none, "x"⟩]⟩
      = List.foldl (step env0)
          (step env0 (List.foldl (step env0) (initProc []) [⟨"respond", none, none, "first"⟩])
            ⟨"respond", none, none, "done"⟩)
          [⟨"call_agent", none, none, "x"⟩]
    ∧ (process_actions env0 []
        ⟨"r", [⟨"respond", none, none, "first"⟩] ++ ⟨"respond", none, none, "done"⟩
          :: [⟨"call_agent", none, none, "x"⟩]⟩).last_response = some "done"
    ∧ (run_conversation env0
        (⟨"r", [⟨"respond", none, none, "first"⟩] ++ ⟨"respond", none, none, "done"⟩
          :: [⟨"call_agent", none, none, "x"⟩]⟩ :: []) []).1 = some "done" := by
  exact c1_all_actions_execute_and_last_respond_wins env0 [] "r"
    [⟨"respond", none, none, "first"⟩] [⟨"call_agent", none, none, "x"⟩]
    none none "done" []
    (by
      intro a ha
      rw [List.mem_singleton] at ha
      subst ha
      decide)

/- ------------------------------------------------------------------
   Claim C3
   ------------------------------------------------------------------ -/

/-- Claim C3: a call_agent action whose target is not in the permitted set
(parent name, if any, together with direct children names) is rejected
before anything happens: the dispatch step leaves the state unchanged (no
registry-lookup effect, no delegation effect, no history change), and
processing the remaining actions in the batch continues as if the action
were absent. -/
theorem c3_forbidden_call_agent_is_inert
    (env : Env) (st : ProcState) (a : ActionModel) (as2 : List ActionModel)
    (h1 : a.type = "call_agent")
    (h2 : ∀ n, a.agent = some n → n ∉ allowedNames env) :
    step env st a = st
    ∧ List.foldl (step env) st (a :: as2) = List.foldl (step env) st as2 := by
  have hstep : step env st a = st := by
    unfold step
    rw [h1]
    rw [if_neg (by decide : ¬ ("call_agent" : String) = "respond")]
    rw [if_neg (by decide : ¬ ("call_agent" : String) = "use_tool")]
    rw [if_pos rfl]
    cases hag : a.agent with
    | none => rfl
    | some n => simp only [stepCallAgent, if_neg (h2 n hag)]
  exact ⟨hstep, by rw [List.foldl_cons, hstep]⟩

/-- Witness for C3: in an agent whose parent is "papa" and whose only
child is "kid", a call_agent aimed at the sibling-like name "stranger" is
inert and the rest of the batch still runs. -/
theorem c3_witness :
    step envKid (initProc []) ⟨"call_agent", some "stranger", none, "hi"⟩ = initProc []
    ∧ List.foldl (step envKid) (initProc [])
        (⟨"call_agent", some "stranger", none, "hi"⟩ :: [⟨"respond", none, none, "ok"⟩])
      = List.foldl (step envKid) (initProc []) [⟨"respond", none, none, "ok"⟩] := by
  exact c3_forbidden_call_agent_is_inert envKid (initProc [])
    ⟨"call_agent", some "stranger", none, "hi"⟩ [⟨"respond", none, none, "ok"⟩]
    rfl
    (by
      intro n hn
      cases hn
      decide)

/- ------------------------------------------------------------------
   Claim C10
   ------------------------------------------------------------------ -/

/-- Claim C10: for every permitted call_agent dispatch to a registered
target, the caller appends the delegated result to its own history tagged
with the target name exactly when the returned string is truthy; a target
returning None or the empty string appends nothing, and in either case
last_response and the final flag are untouched and the loop continues with
the remaining actions. -/
theorem c10_delegation_append_iff_truthy
    (env : Env) (st : ProcState) (a : ActionModel) (n : String)
    (r : Option String) (as2 : List ActionModel)
    (h1 : a.type = "call_agent") (h2 : a.agent = some n)
    (h3 : n ∈ allowedNames env) (h4 : env.registry n = some r) :
    (step env st a).history
      = (if truthyOpt r
         then st.history ++ [⟨"assistant", n ++ ": " ++ r.getD "", none⟩]
         else st.history)
    ∧ (step env st a).trace
        = st.trace ++ [Effect.registryLookup n, Effect.delegated n a.message]
    ∧ (step env st a).last_response = st.last_response
    ∧ (step env st a).final = st.final
    ∧ List.foldl (step env) st (a :: as2) = List.foldl (step env) (step env st a) as2 := by
  have hred : step env st a = stepCallAgent env st a.agent a.message := by
    unfold step
    rw [h1]
    rw [if_neg (by decide : ¬ ("call_agent" : String) = "respond")]
    rw [if_neg (by decide : ¬ ("call_agent" : String) = "use_tool")]
    rw [if_pos rfl]
  have hca : stepCallAgent env st a.agent a.message
      = (if truthyOpt r
         then { st with
                  trace := st.trace ++ [Effect.registryLookup n, Effect.delegated n a.message],
                  history := st.history ++ [⟨"assistant", n ++ ": " ++ r.getD "", none⟩] }
         else { st with
                  trace := st.trace ++ [Effect.registryLookup n, Effect.delegated n a.message] }) := by
    rw [h2]
    simp only [stepCallAgent]
    rw [if_pos h3, h4]
    simp only [stepDelegate]
    by_cases ht : truthyOpt r
    · rw [if_pos ht, if_pos ht]
      show ({ st with
          trace := (st.trace ++ [Effect.registryLookup n]) ++ [Effect.delegated n a.message],
          history := add_assistant st.history (n ++ ": " ++ r.getD "") } : ProcState) = _
      rw [List.append_assoc]
      rfl
    · rw [if_neg ht, if_neg ht]
      show ({ st with
          trace := (st.trace ++ [Effect.registryLookup n]) ++ [Effect.delegated n a.message] }
          : ProcState) = _
      rw [List.append_assoc]
      rfl
  rw [hred, hca]
  by_cases ht : truthyOpt r
  · rw [if_pos ht, if_pos ht]
    refine ⟨rfl, rfl, rfl, rfl, ?_⟩
    rw [List.foldl_cons, hred, hca, if_pos ht]
  · rw [if_neg ht, if_neg ht]
    refine ⟨rfl, rfl, rfl, rfl, ?_⟩
    rw [List.foldl_cons, hred, hca, if_neg ht]

/-- Witness for C10: the child "kid" is permitted and registered, and its
run returns the empty string, which is falsy: nothing is appended to the
history while the lookup and delegation are recorded. -/
theorem c10_witness :
    (step envKid (initProc []) ⟨"call_agent", some "kid", none, "hi"⟩).history
      = (if truthyOpt (some "")
         then (initProc []).history ++ [⟨"assistant", "kid" ++ ": " ++ (some "").getD "", none⟩]
         else (initProc []).history)
    ∧ (step envKid (initProc []) ⟨"call_agent", some "kid", none, "hi"⟩).trace
        = (initProc []).trace ++ [Effect.registryLookup "kid", Effect.delegated "kid" "hi"]
    ∧ (step envKid (initProc []) ⟨"call_agent", some "kid", none, "hi"⟩).last_response
        = (initProc []).last_response
    ∧ (step envKid (initProc []) ⟨"call_agent", some "kid", none, "hi"⟩).final
        = (initProc []).final
    ∧ List.foldl (step envKid) (initProc [])
        (⟨"call_agent", some "kid", none, "hi"⟩ :: [⟨"respond", none, none, "ok"⟩])
      = List.foldl (step envKid)
          (step envKid (initProc []) ⟨"call_agent", some "kid", none, "hi"⟩)
          [⟨"respond", none, none, "ok"⟩] := by
  exact c10_delegation_append_iff_truthy envKid (initProc [])
    ⟨"call_agent", some "kid", none, "hi"⟩ "kid" (some "")
    [⟨"respond", none, none, "ok"⟩] rfl rfl (by decide) rfl

/- ------------------------------------------------------------------
   Registry lemmas and Claim C8
   ------------------------------------------------------------------ -/

theorem get_none_any_false (m : AgentManager) (x : String)
    (h : m.get x = none) : m.agents.any (fun p => p.1 == x) = false := by
  unfold AgentManager.get at h
  cases hf : m.agents.find? (fun p => p.1 == x) with
  | some q => rw [hf] at h; simp at h
  | none =>
    rw [List.any_eq_false]
    intro q hq
    have := List.find?_eq_none.mp hf q hq
    simpa using this

/-- Claim C8: registering an agent whose name already exists fails with an
error (and, the operation being pure, the registry keeps only the first
agent under that name, as the subsequent lookup shows); registration under
a fresh name succeeds and extends the mapping; unregistering an absent
name is a no-op. -/
theorem c8_registry_uniqueness (m : AgentManager) (a b : RAgent) (nm : String)
    (hfresh : m.get a.name = none)
    (hdup : b.name = a.name)
    (habs : m.get nm = none) :
    m.register a = Except.ok ⟨m.agents ++ [(a.name, a)]⟩
    ∧ (AgentManager.mk (m.agents ++ [(a.name, a)])).register b
        = Except.error ("Agent with name " ++ b.name ++ " already exists.")
    ∧ (AgentManager.mk (m.agents ++ [(a.name, a)])).get b.name = some a
    ∧ m.unregister nm = m := by
  have hany : m.agents.any (fun p => p.1 == a.name) = false :=
    get_none_any_false m a.name hfresh
  have hanyn : m.agents.any (fun p => p.1 == nm) = false :=
    get_none_any_false m nm habs
  have hfind : m.agents.find? (fun p => p.1 == b.name) = none := by
    rw [hdup]
    rw [List.find?_eq_none]
    intro q hq
    have := List.any_eq_false.mp hany q hq
    simpa using this
  refine ⟨?_, ?_, ?_, ?_⟩
  · unfold AgentManager.register
    rw [if_neg (by rw [hany]; exact Bool.false_ne_true)]
  · unfold AgentManager.register
    rw [if_pos ?_]
    rw [List.any_eq_true]
    refine ⟨(a.name, a), by simp, by simp [hdup]⟩
  · unfold AgentManager.get
    rw [List.find?_append, hfind]
    show (([(a.name, a)].find? (fun p => p.1 == b.name)).map (fun p => p.2)) = some a
    rw [List.find?_cons_of_pos _ (by simp [hdup])]
    rfl
  · unfold AgentManager.unregister
    rw [if_neg (by rw [hanyn]; exact Bool.false_ne_true)]

/-- Witness for C8: a registry holding "x"; registering "alpha" succeeds,
re-registering another agent named "alpha" fails and "alpha" still maps to
the first instance, and unregistering the absent "ghost" changes nothing. -/
theorem c8_witness :
    (AgentManager.mk [("x", ⟨"x", 0⟩)]).register ⟨"alpha", 1⟩
      = Except.ok ⟨[("x", ⟨"x", 0⟩), ("alpha", ⟨"alpha", 1⟩)]⟩
    ∧ (AgentManager.mk [("x", ⟨"x", 0⟩), ("alpha", ⟨"alpha", 1⟩)]).register ⟨"alpha", 2⟩
        = Except.error ("Agent with name " ++ "alpha" ++ " already exists.")
    ∧ (AgentManager.mk [("x", ⟨"x", 0⟩), ("alpha", ⟨"alpha", 1⟩)]).get "alpha"
        = some ⟨"alpha", 1⟩
    ∧ (AgentManager.mk [("x", ⟨"x", 0⟩)]).unregister "ghost"
        = AgentManager.mk [("x", ⟨"x", 0⟩)] := by
  exact c8_registry_uniqueness (AgentManager.mk [("x", ⟨"x", 0⟩)])
    ⟨"alpha", 1⟩ ⟨"alpha", 2⟩ "ghost" rfl rfl rfl

/- ------------------------------------------------------------------
   History invariant lemmas and Claim C9
   ------------------------------------------------------------------ -/

theorem updateFirstRole_none_all (r c : String) (h : History)
    (hn : updateFirstRole r c h = none) : h.all (fun m => m.role != r) = true := by
  induction h with
  | nil => rfl
  | cons m rest ih =>
    by_cases hm : m.role = r
    · exfalso
      unfold updateFirstRole at hn
      rw [if_pos hm] at hn
      cases hn
    · unfold updateFirstRole at hn
      rw [if_neg hm] at hn
      cases hu : updateFirstRole r c rest with
      | some rest2 => rw [hu] at hn; cases hn
      | none =>
        have hall := ih hu
        simp [List.all_cons, hall, hm]

theorem noSystem_updateFirstRole_none (c : String) (h : History)
    (hs : noSystem h = true) : updateFirstRole "system" c h = none := by
  induction h with
  | nil => rfl
  | cons m rest ih =>
    unfold noSystem at hs
    rw [List.all_cons, Bool.and_eq_true] at hs
    obtain ⟨hm, hrest⟩ := hs
    have hm2 : ¬ m.role = "system" := by simpa using hm
    unfold updateFirstRole
    rw [if_neg hm2, ih hrest]

theorem updateFirstRole_length (r c : String) (h : History) :
    ∀ h2 : History, updateFirstRole r c h = some h2 → h2.length = h.length := by
  induction h with
  | nil => intro h2 hu; cases hu
  | cons m rest ih =>
    intro h2 hu
    unfold updateFirstRole at hu
    by_cases hm : m.role = r
    · rw [if_pos hm] at hu
      injection hu with hu2
      subst hu2
      rfl
    · rw [if_neg hm] at hu
      cases hr : updateFirstRole r c rest with
      | none => rw [hr] at hu; cases hu
      | some rest2 =>
        rw [hr] at hu
        injection hu with hu2
        subst hu2
        simp [List.length_cons, ih rest2 hr]

theorem histInv_update_or_add (c : String) (h : History) (hi : histInv h = true) :
    histInv (update_or_add h "system" c) = true := by
  unfold update_or_add
  cases hu : updateFirstRole "system" c h with
  | none =>
    have hall := updateFirstRole_none_all "system" c h hu
    simpa [histInv, noSystem] using hall
  | some h2 =>
    cases h with
    | nil => cases hu
    | cons m rest =>
      by_cases hm : m.role = "system"
      · unfold updateFirstRole at hu
        rw [if_pos hm] at hu
        injection hu with hu2
        subst hu2
        simpa [histInv] using hi
      · unfold updateFirstRole at hu
        rw [if_neg hm] at hu
        have hnone : updateFirstRole "system" c rest = none :=
          noSystem_updateFirstRole_none c rest (by simpa [histInv] using hi)
        rw [hnone] at hu
        cases hu

theorem histInv_append (h : History) (m : Msg) (hi : histInv h = true)
    (hm : m.role ≠ "system") : histInv (h ++ [m]) = true := by
  cases h with
  | nil =>
    show noSystem [] = true
    rfl
  | cons x rest =>
    show noSystem (rest ++ [m]) = true
    unfold noSystem
    rw [List.all_append]
    have h1 : rest.all (fun mm => mm.role != "system") = true := by
      simpa [histInv, noSystem] using hi
    simp [h1, hm]

theorem histInv_applyOp (h : History) (op : HistOp) (hi : histInv h = true) :
    histInv (applyOp h op) = true := by
  cases op with
  | addSystem c => exact histInv_update_or_add c h hi
  | updateSystem c => exact histInv_update_or_add c h hi
  | addUser c =>
    exact histInv_append h _ hi (show ("user" : String) ≠ "system" by decide)
  | addAssistant c =>
    exact histInv_append h _ hi (show ("assistant" : String) ≠ "system" by decide)
  | addFunction c nm =>
    exact histInv_append h _ hi (show ("function" : String) ≠ "system" by decide)

theorem histInv_initHistory (init : Option String) :
    histInv (initHistory init) = true := by
  cases init with
  | none => rfl
  | some s =>
    by_cases hs : s = ""
    · simp only [initHistory]
      rw [if_pos hs]
      rfl
    · simp only [initHistory]
      rw [if_neg hs]
      rfl

theorem histInv_runOps (init : Option String) (ops : List HistOp) :
    histInv (runOps init ops) = true := by
  unfold runOps
  have hh := histInv_initHistory init
  revert hh
  generalize initHistory init = h
  induction ops generalizing h with
  | nil => intro hh; exact hh
  | cons op ops ih =>
    intro hh
    rw [List.foldl_cons]
    exact ih _ (histInv_applyOp h op hh)

theorem updateFirstRole_idem (r c : String) (h : History) :
    ∀ h2 : History, updateFirstRole r c h = some h2 →
      updateFirstRole r c h2 = some h2 := by
  induction h with
  | nil => intro h2 hu; cases hu
  | cons m rest ih =>
    intro h2 hu
    unfold updateFirstRole at hu
    by_cases hm : m.role = r
    · rw [if_pos hm] at hu
      injection hu with hu2
      subst hu2
      unfold updateFirstRole
      rw [if_pos (show ({ m with content := c } : Msg).role = r from hm)]
    · rw [if_neg hm] at hu
      cases hr : updateFirstRole r c rest with
      | none => rw [hr] at hu; cases hu
      | some rest2 =>
        rw [hr] at hu
        injection hu with hu2
        subst hu2
        unfold updateFirstRole
        rw [if_neg hm, ih rest2 hr]

theorem update_or_add_idem (h : History) (r c : String) :
    update_or_add (update_or_add h r c) r c = update_or_add h r c := by
  unfold update_or_add
  cases hu : updateFirstRole r c h with
  | some h2 => rw [updateFirstRole_idem r c h h2 hu]
  | none =>
    show (match updateFirstRole r c (⟨r, c, none⟩ :: h) with
          | some hh => hh
          | none => ⟨r, c, none⟩ :: (⟨r, c, none⟩ :: h)) = ⟨r, c, none⟩ :: h
    unfold updateFirstRole
    rw [if_pos (show (Msg.mk r c none).role = r from rfl)]

/-- Claim C9: every sequence of Conversation State operations starting
from the constructor preserves the invariant that all system messages sit
at position 0 (so at most one exists and it is logically first); setting
the system message is idempotent, so setting it twice with identical
content leaves the history (hence its message count and the system slot
position) unchanged; a system update either replaces in place (length
preserved) or inserts into a history that had no system message; and the
non-system operations are pure appends, preserving insertion order. -/
theorem c9_history_invariants (init : Option String) (ops : List HistOp)
    (c u asst fc fn : String) :
    histInv (runOps init ops) = true
    ∧ applyOp (applyOp (runOps init ops) (HistOp.addSystem c)) (HistOp.addSystem c)
        = applyOp (runOps init ops) (HistOp.addSystem c)
    ∧ ((applyOp (runOps init ops) (HistOp.addSystem c)).length
          = (runOps init ops).length
        ∨ (runOps init ops).all (fun m => m.role != "system") = true)
    ∧ applyOp (runOps init ops) (HistOp.addUser u)
        = runOps init ops ++ [⟨"user", u, none⟩]
    ∧ applyOp (runOps init ops) (HistOp.addAssistant asst)
        = runOps init ops ++ [⟨"assistant", asst, none⟩]
    ∧ applyOp (runOps init ops) (HistOp.addFunction fc fn)
        = runOps init ops ++ [⟨"function", fc, some fn⟩] := by
  refine ⟨histInv_runOps init ops,
    update_or_add_idem (runOps init ops) "system" c, ?_, rfl, rfl, rfl⟩
  show (update_or_add (runOps init ops) "system" c).length = (runOps init ops).length ∨ _
  unfold update_or_add
  cases hu : updateFirstRole "system" c (runOps init ops) with
  | some h2 => exact Or.inl (updateFirstRole_length "system" c (runOps init ops) h2 hu)
  | none => exact Or.inr (updateFirstRole_none_all "system" c (runOps init ops) hu)

/- ------------------------------------------------------------------
   use_tool reduction lemmas
   ------------------------------------------------------------------ -/

theorem step_use_tool_reduce (env : Env) (st : ProcState) (a : ActionModel)
    (h1 : a.type = "use_tool") : step env st a = stepUseTool env st a.tool := by
  unfold step
  rw [h1]
  rw [if_neg (by decide : ¬ ("use_tool" : String) = "respond")]
  rw [if_pos rfl]

theorem step_use_tool_checked (env : Env) (st : ProcState) (a : ActionModel)
    (t : ToolModel) (tn : String) (timpl : ToolImpl)
    (h1 : a.type = "use_tool") (h2 : a.tool = some t) (h3 : t.name = some tn)
    (h4 : env.lookupTool tn = some timpl) :
    step env st a
      = stepToolChecked st tn timpl
          (normalizeParams tn timpl.expected_params t.params) := by
  rw [step_use_tool_reduce env st a h1, h2]
  simp only [stepUseTool]
  rw [h3]
  simp only [stepToolNamed]
  rw [h4]
  simp only [stepToolLookup]

theorem normalizeParams_obj (tn : String) (expected : List String)
    (kvs : List (String × JsonValue)) :
    normalizeParams tn expected (JsonValue.obj kvs) = Except.ok kvs := rfl

theorem normalizeParams_str (tn : String) (expected : List String) (s : String) :
    normalizeParams tn expected (JsonValue.str s)
      = match loads s with
        | none => Except.error "Invalid JSON in tool params: invalid JSON"
        | some (JsonValue.obj kvs) => Except.ok kvs
        | some (JsonValue.arr xs) =>
          if xs.length = expected.length then Except.ok (expected.zip xs)
          else Except.error (listLenMsg tn expected.length xs.length)
        | some v => Except.error (badTypeMsg tn v) := by
  show (match (match loads s with
        | some v => Except.ok v
        | none =>
          (Except.error "Invalid JSON in tool params: invalid JSON" :
            Except String JsonValue)) with
      | Except.error e => Except.error e
      | Except.ok (JsonValue.obj kvs) => Except.ok kvs
      | Except.ok (JsonValue.arr xs) =>
        if xs.length = expected.length then Except.ok (expected.zip xs)
        else Except.error (listLenMsg tn expected.length xs.length)
      | Except.ok v => Except.error (badTypeMsg tn v)) = _
  cases hl : loads s with
  | none => rfl
  | some v => cases v <;> rfl

/- ------------------------------------------------------------------
   Claim C4
   ------------------------------------------------------------------ -/

/-- Claim C4 (amended): for every use_tool dispatch to a registered tool
whose params are already a decoded mapping, the stringified parameter key
set must exactly equal the tool's formal parameter names — a strict subset
or superset is reported as a parameter mismatch and the tool is not
invoked (no invocation effect, only the mismatch note) — while an
exact-match set causes the tool to be invoked with those keyword
arguments after each value has been converted to its string
representation by _validate_strict_params (the code stringifies every
value rather than passing types through untouched); the batch then
continues with the remaining actions. -/
theorem c4_exact_param_set_gates_invocation
    (env : Env) (st : ProcState) (a : ActionModel) (t : ToolModel)
    (tn : String) (timpl : ToolImpl) (kvs : List (String × JsonValue))
    (as2 : List ActionModel)
    (h1 : a.type = "use_tool") (h2 : a.tool = some t) (h3 : t.name = some tn)
    (h4 : env.lookupTool tn = some timpl) (h5 : t.params = JsonValue.obj kvs) :
    (step env st a).trace
      = (if sameSet ((validate_strict_params kvs).map (fun p => p.1))
            timpl.expected_params
         then st.trace ++ [Effect.toolInvoked tn (validate_strict_params kvs)]
         else st.trace)
    ∧ (sameSet ((validate_strict_params kvs).map (fun p => p.1))
          timpl.expected_params = false →
        step env st a
          = { st with
              history := add_assistant st.history
                (keyMismatchMsg tn timpl.expected_params
                  ((validate_strict_params kvs).map (fun p => p.1))) })
    ∧ List.foldl (step env) st (a :: as2)
        = List.foldl (step env) (step env st a) as2 := by
  have hred : step env st a = stepToolChecked st tn timpl (Except.ok kvs) := by
    rw [step_use_tool_checked env st a t tn timpl h1 h2 h3 h4, h5, normalizeParams_obj]
  refine ⟨?_, ?_, rfl⟩
  · rw [hred]
    by_cases hs : sameSet ((validate_strict_params kvs).map (fun p => p.1))
        timpl.expected_params
    · rw [if_pos hs]
      simp only [stepToolChecked, if_pos hs, runTool_trace]
    · rw [if_neg hs]
      simp only [stepToolChecked, if_neg hs]
  · intro hs
    rw [hred]
    have hns : ¬ sameSet ((validate_strict_params kvs).map (fun p => p.1))
        timpl.expected_params = true := by
      rw [hs]
      exact Bool.false_ne_true
    simp only [stepToolChecked, if_neg hns]

/-- Counterexample to C4 as stated: the core does transform argument
values before the call — _validate_strict_params stringifies them — so a
tool whose decoded params map "x" to the JSON number 5 is invoked with the
string "5", which is a different value of a different type. -/
theorem c4_counterexample :
    validate_strict_params [("x", JsonValue.num 5)] = [("x", "5")]
    ∧ (step envEcho1 (initProc [])
        ⟨"use_tool", none,
          some ⟨some "echo1", JsonValue.obj [("x", JsonValue.num 5)]⟩, ""⟩).trace
      = [Effect.toolInvoked "echo1" [("x", "5")]]
    ∧ JsonValue.str "5" ≠ JsonValue.num 5 :=
  ⟨rfl, rfl, fun hcon => nomatch hcon⟩

/-- Witness for C4: the two-parameter tool "pair" called with only the
key "x" — a strict subset — is not invoked and the mismatch is recorded. -/
theorem c4_witness :
    (step envPair (initProc [])
        ⟨"use_tool", none,
          some ⟨some "pair", JsonValue.obj [("x", JsonValue.str "1")]⟩, ""⟩).trace
      = (if sameSet ((validate_strict_params [("x", JsonValue.str "1")]).map (fun p => p.1))
            toolPair.expected_params
         then (initProc []).trace
            ++ [Effect.toolInvoked "pair" (validate_strict_params [("x", JsonValue.str "1")])]
         else (initProc []).trace)
    ∧ (sameSet ((validate_strict_params [("x", JsonValue.str "1")]).map (fun p => p.1))
          toolPair.expected_params = false →
        step envPair (initProc [])
          ⟨"use_tool", none,
            some ⟨some "pair", JsonValue.obj [("x", JsonValue.str "1")]⟩, ""⟩
          = { initProc [] with
              history := add_assistant (initProc []).history
                (keyMismatchMsg "pair" toolPair.expected_params
                  ((validate_strict_params [("x", JsonValue.str "1")]).map (fun p => p.1))) })
    ∧ List.foldl (step envPair) (initProc [])
        (⟨"use_tool", none,
          some ⟨some "pair", JsonValue.obj [("x", JsonValue.str "1")]⟩, ""⟩ :: [])
      = List.foldl (step envPair)
          (step envPair (initProc [])
            ⟨"use_tool", none,
              some ⟨some "pair", JsonValue.obj [("x", JsonValue.str "1")]⟩, ""⟩)
          [] :=
  c4_exact_param_set_gates_invocation envPair (initProc [])
    ⟨"use_tool", none, some ⟨some "pair", JsonValue.obj [("x", JsonValue.str "1")]⟩, ""⟩
    ⟨some "pair", JsonValue.obj [("x", JsonValue.str "1")]⟩ "pair" toolPair
    [("x", JsonValue.str "1")] [] rfl rfl rfl rfl rfl

/- ------------------------------------------------------------------
   Claim C5
   ------------------------------------------------------------------ -/

/-- Claim C5 (amended): a use_tool action whose string params either fails
to re-parse as JSON, or re-parses to a value that is neither an object nor
a list whose length equals the number of the tool's formal parameters,
fails: exactly one failure note is recorded as an assistant message, the
tool is not invoked (the trace, last_response and final flag are
untouched), and the remaining sibling actions in the same batch are still
processed.  (The original claim says every non-object fails; the code
additionally accepts a list of matching arity, zipping it into a mapping
by position — see the counterexample.) -/
theorem c5_bad_string_params_fail_locally
    (env : Env) (st : ProcState) (a : ActionModel) (t : ToolModel)
    (tn : String) (timpl : ToolImpl) (s : String) (as2 : List ActionModel)
    (h1 : a.type = "use_tool") (h2 : a.tool = some t) (h3 : t.name = some tn)
    (h4 : env.lookupTool tn = some timpl) (h5 : t.params = JsonValue.str s)
    (hbad : badParamsB timpl.expected_params s = true) :
    step env st a
      = { st with
          history := add_assistant st.history
            (paramFailMsg tn timpl.expected_params s) }
    ∧ List.foldl (step env) st (a :: as2)
        = List.foldl (step env) (step env st a) as2 := by
  refine ⟨?_, rfl⟩
  rw [step_use_tool_checked env st a t tn timpl h1 h2 h3 h4, h5, normalizeParams_str]
  unfold badParamsB at hbad
  unfold paramFailMsg
  cases hl : loads s with
  | none => rfl
  | some v =>
    rw [hl] at hbad
    cases v with
    | null => rfl
    | bool b => rfl
    | num n => rfl
    | str s2 => rfl
    | obj kvs => exact Bool.noConfusion hbad
    | arr xs =>
      have hbad2 : (!(xs.length == timpl.expected_params.length)) = true := hbad
      have hne : ¬ xs.length = timpl.expected_params.length := by
        simpa using hbad2
      show stepToolChecked st tn timpl
          (if xs.length = timpl.expected_params.length
           then Except.ok (timpl.expected_params.zip xs)
           else Except.error (listLenMsg tn timpl.expected_params.length xs.length))
        = { st with
            history := add_assistant st.history
              (listLenMsg tn timpl.expected_params.length xs.length) }
      rw [if_neg hne]
      rfl

/-- Counterexample to C5 as stated: the string params "[42]" re-parse to a
JSON list, not an object, yet for the one-parameter tool "echo1" the list
is zipped into the mapping x ↦ 42 and the tool IS invoked, recording its
result — the non-object case does not always fail. -/
theorem c5_counterexample :
    loads "[42]" = some (JsonValue.arr [JsonValue.num 42])
    ∧ (step envEcho1 (initProc [])
        ⟨"use_tool", none, some ⟨some "echo1", JsonValue.str "[42]"⟩, ""⟩).trace
      = [Effect.toolInvoked "echo1" [("x", "42")]]
    ∧ (step envEcho1 (initProc [])
        ⟨"use_tool", none, some ⟨some "echo1", JsonValue.str "[42]"⟩, ""⟩).history
      = [⟨"function", "ok", some "echo1"⟩] :=
  ⟨rfl, rfl, rfl⟩

/-- Witness for C5: the string params "oops" does not parse as JSON; the
action fails with one assistant note and the following respond action is
still processed. -/
theorem c5_witness :
    step envEcho1 (initProc [])
        ⟨"use_tool", none, some ⟨some "echo1", JsonValue.str "oops"⟩, ""⟩
      = { initProc [] with
          history := add_assistant (initProc []).history
            (paramFailMsg "echo1" toolEcho1.expected_params "oops") }
    ∧ List.foldl (step envEcho1) (initProc [])
        (⟨"use_tool", none, some ⟨some "echo1", JsonValue.str "oops"⟩, ""⟩
          :: [⟨"respond", none, none, "ok"⟩])
      = List.foldl (step envEcho1)
          (step envEcho1 (initProc [])
            ⟨"use_tool", none, some ⟨some "echo1", JsonValue.str "oops"⟩, ""⟩)
          [⟨"respond", none, none, "ok"⟩] :=
  c5_bad_string_params_fail_locally envEcho1 (initProc [])
    ⟨"use_tool", none, some ⟨some "echo1", JsonValue.str "oops"⟩, ""⟩
    ⟨some "echo1", JsonValue.str "oops"⟩ "echo1" toolEcho1 "oops"
    [⟨"respond", none, none, "ok"⟩] rfl rfl rfl rfl rfl rfl

/- ------------------------------------------------------------------
   Claim C7
   ------------------------------------------------------------------ -/

/-- Claim C7 (amended): for every tool invocation that is reached
(registered tool, exact stringified-parameter match), all outcomes are
recorded locally and nothing propagates out of the loop: a raising tool
is caught and recorded as an assistant failure note; a tool returning
None is recorded as the canned "executed successfully, no output"
function note; any other result — including the empty string — is
recorded verbatim as a function-role message carrying the tool's name.
(The original claim routes an empty result to the canned note; the code
only does that for None.)  The batch then continues with the remaining
actions. -/
theorem c7_tool_invocation_outcomes_recorded
    (env : Env) (st : ProcState) (a : ActionModel) (t : ToolModel)
    (tn : String) (timpl : ToolImpl) (kvs : List (String × JsonValue))
    (as2 : List ActionModel)
    (h1 : a.type = "use_tool") (h2 : a.tool = some t) (h3 : t.name = some tn)
    (h4 : env.lookupTool tn = some timpl) (h5 : t.params = JsonValue.obj kvs)
    (h6 : sameSet ((validate_strict_params kvs).map (fun p => p.1))
        timpl.expected_params = true) :
    step env st a
      = { st with
          trace := st.trace ++ [Effect.toolInvoked tn (validate_strict_params kvs)],
          history :=
            match timpl.run (validate_strict_params kvs) with
            | Except.error e =>
              add_assistant st.history ("Error with tool " ++ tn ++ ": " ++ e)
            | Except.ok none =>
              add_function st.history "Tool executed successfully with no output." tn
            | Except.ok (some r) => add_function st.history r tn }
    ∧ List.foldl (step env) st (a :: as2)
        = List.foldl (step env) (step env st a) as2 := by
  refine ⟨?_, rfl⟩
  rw [step_use_tool_checked env st a t tn timpl h1 h2 h3 h4, h5, normalizeParams_obj]
  simp only [stepToolChecked, if_pos h6]
  unfold runTool
  cases hr : timpl.run (validate_strict_params kvs) with
  | ok res =>
    cases res with
    | none => rfl
    | some r => rfl
  | error e => rfl

/-- Counterexample to C7 as stated: a tool returning the empty string — an
empty but non-None result — is recorded verbatim as an empty function
message, not as the canned "executed successfully, no output" note. -/
theorem c7_counterexample :
    (step envEmptyRes (initProc [])
        ⟨"use_tool", none, some ⟨some "emptyTool", JsonValue.obj []⟩, ""⟩).history
      = [⟨"function", "", some "emptyTool"⟩]
    ∧ ("" : String) ≠ "Tool executed successfully with no output." :=
  ⟨rfl, by decide⟩

/-- Witness for C7: the tool "boom" raises; the error is recorded as an
assistant note, the invocation is traced, and the batch continues. -/
theorem c7_witness :
    step envBoom (initProc [])
        ⟨"use_tool", none,
          some ⟨some "boom", JsonValue.obj [("x", JsonValue.str "1")]⟩, ""⟩
      = { initProc [] with
          trace := (initProc []).trace
            ++ [Effect.toolInvoked "boom"
                  (validate_strict_params [("x", JsonValue.str "1")])],
          history :=
            match toolBoom.run (validate_strict_params [("x", JsonValue.str "1")]) with
            | Except.error e =>
              add_assistant (initProc []).history ("Error with tool " ++ "boom" ++ ": " ++ e)
            | Except.ok none =>
              add_function (initProc []).history
                "Tool executed successfully with no output." "boom"
            | Except.ok (some r) => add_function (initProc []).history r "boom" }
    ∧ List.foldl (step envBoom) (initProc [])
        (⟨"use_tool", none,
          some ⟨some "boom", JsonValue.obj [("x", JsonValue.str "1")]⟩, ""⟩ :: [])
      = List.foldl (step envBoom)
          (step envBoom (initProc [])
            ⟨"use_tool", none,
              some ⟨some "boom", JsonValue.obj [("x", JsonValue.str "1")]⟩, ""⟩)
          [] :=
  c7_tool_invocation_outcomes_recorded envBoom (initProc [])
    ⟨"use_tool", none, some ⟨some "boom", JsonValue.obj [("x", JsonValue.str "1")]⟩, ""⟩
    ⟨some "boom", JsonValue.obj [("x", JsonValue.str "1")]⟩ "boom" toolBoom
    [("x", JsonValue.str "1")] [] rfl rfl rfl rfl rfl rfl

/- ------------------------------------------------------------------
   Claim C2
   ------------------------------------------------------------------ -/

/-- Claim C2 (evaluating the code at failing inputs, exhibiting the bug):
for a reply that is not JSON, for a truncated JSON reply, and for a reply
that parses but fails schema validation, parse_response returns no decoded
response — so the turn cannot proceed with a partially-decoded response —
but the assistant note recorded in the Conversation State is in every case
the fixed literal text "Error parsing response: \x7be\x7d": the source
line lacks the f-string prefix, so the note does not describe the error as
the spec requires, and the function returns None instead of raising. -/
theorem c2_parse_failure_note_is_literal :
    parse_response [] "not json"
      = (none, [⟨"assistant", "Error parsing response: \x7be\x7d", none⟩])
    ∧ parse_response [] "[1, 2"
      = (none, [⟨"assistant", "Error parsing response: \x7be\x7d", none⟩])
    ∧ parse_response []
        "\x7b\"reasoning\": \"r\", \"actions\": [\x7b\"type\": \"fly\", \"message\": \"m\"\x7d]\x7d"
      = (none, [⟨"assistant", "Error parsing response: \x7be\x7d", none⟩]) :=
  ⟨rfl, rfl, rfl⟩

/- ------------------------------------------------------------------
   Claim C6
   ------------------------------------------------------------------ -/

theorem buildAction_error (e : String) (x : Except String (Option String))
    (y : Except String (Option ToolModel)) (z : Except String String) :
    buildAction (Except.error e) x y z = Except.error e := by
  cases x <;> cases y <;> cases z <;> rfl

/-- Claim C6 (amended): decoding validates each action against the data
model, rejecting any action whose type lies outside the three-value enum
and any action carrying an extra, unspecified field; but an action whose
required-by-type field is absent (tool for use_tool, agent for
call_agent) is NOT a validation failure — the field defaults to None and
the whole action validates, the miss being handled later at dispatch
time. -/
theorem c6_validation_enum_and_extra_fields
    (kvs kvs2 : List (String × JsonValue)) (ty k : String) (v : JsonValue)
    (hty : lookupField kvs "type" = some (JsonValue.str ty))
    (henum : (["respond", "use_tool", "call_agent"].contains ty) = false)
    (hk : actionFields.contains k = false)
    (hkmem : (k, v) ∈ kvs2) :
    isErrorE (ActionModel.validate (JsonValue.obj kvs)) = true
    ∧ isErrorE (ActionModel.validate (JsonValue.obj kvs2)) = true
    ∧ ActionModel.validate
        (JsonValue.obj [("type", JsonValue.str "use_tool"), ("message", JsonValue.str "m")])
      = Except.ok ⟨"use_tool", none, none, "m"⟩
    ∧ ActionModel.validate
        (JsonValue.obj [("type", JsonValue.str "call_agent"), ("message", JsonValue.str "m")])
      = Except.ok ⟨"call_agent", none, none, "m"⟩ := by
  refine ⟨?_, ?_, rfl, rfl⟩
  · simp only [ActionModel.validate]
    by_cases hex : kvs.any (fun p => !(actionFields.contains p.1)) = true
    · rw [if_pos hex]
      rfl
    · rw [if_neg hex, hty]
      have hvt : validTypeField (some (JsonValue.str ty))
          = Except.error "Invalid action type; must be respond, use_tool, or call_agent." := by
        simp only [validTypeField]
        rw [if_neg (show ¬ (["respond", "use_tool", "call_agent"].contains ty) = true by
          rw [henum]; exact Bool.false_ne_true)]
      rw [hvt, buildAction_error]
      rfl
  · simp only [ActionModel.validate]
    have hex2 : kvs2.any (fun p => !(actionFields.contains p.1)) = true := by
      rw [List.any_eq_true]
      exact ⟨(k, v), hkmem, show (!(actionFields.contains k)) = true by rw [hk]; rfl⟩
    rw [if_pos hex2]
    rfl

/-- Counterexample to C6 as stated: a use_tool action with no tool field
and a call_agent action with no agent field both pass validation (the
fields default to None); a missing required-by-type field is not a
failure of the decode step. -/
theorem c6_counterexample :
    ActionModel.validate
        (JsonValue.obj [("type", JsonValue.str "use_tool"), ("message", JsonValue.str "x")])
      = Except.ok ⟨"use_tool", none, none, "x"⟩
    ∧ ActionModel.validate
        (JsonValue.obj [("type", JsonValue.str "call_agent"), ("message", JsonValue.str "y")])
      = Except.ok ⟨"call_agent", none, none, "y"⟩ :=
  ⟨rfl, rfl⟩

/-- Witness for C6: the unknown type "fly" is rejected, an object carrying
the unspecified field "typo" is rejected, and the two default-field
acceptances hold. -/
theorem c6_witness :
    isErrorE (ActionModel.validate
        (JsonValue.obj [("type", JsonValue.str "fly"), ("message", JsonValue.str "m")])) = true
    ∧ isErrorE (ActionModel.validate (JsonValue.obj [("typo", JsonValue.null)])) = true
    ∧ ActionModel.validate
        (JsonValue.obj [("type", JsonValue.str "use_tool"), ("message", JsonValue.str "m")])
      = Except.ok ⟨"use_tool", none, none, "m"⟩
    ∧ ActionModel.validate
        (JsonValue.obj [("type", JsonValue.str "call_agent"), ("message", JsonValue.str "m")])
      = Except.ok ⟨"call_agent", none, none, "m"⟩ :=
  c6_validation_enum_and_extra_fields
    [("type", JsonValue.str "fly"), ("message", JsonValue.str "m")]
    [("typo", JsonValue.null)] "fly" "typo" JsonValue.null
    rfl rfl rfl (List.mem_singleton.mpr rfl)

end OrchestrAI
